import Mathlib

/-!
Verification of the roulette catalog service core (src/thanos32.py).

Modelling conventions:
* Python strings are modelled as PyStr, lists of characters; Python
  integers as Int; counts as Nat; dictionaries as insertion ordered
  association lists.
* Exceptions are modelled with the Except monad over PyErr; a try/except
  block becomes a match on the Except value that turns the caught error
  classes into the fallback value and lets the others escape.
* datetime values are CivilDateTime records; arithmetic goes through
  epoch seconds (proleptic Gregorian calendar, era based formulas).
  The supported range of the CPython datetime type (years 1 to 9999) is
  enforced in astimezone_brasilia, where an out of range intermediate
  raises OverflowError, as in CPython.
* The target zone America/Sao_Paulo is modelled with its current fixed
  offset UTC-03:00 (permanent since 2019; the historical DST table of
  pytz is out of scope). Naive parsed datetimes (no embedded offset) are
  converted assuming the host clock runs UTC.
* Wall clock instants for the cache are modelled as exact integer
  seconds.
-/

/-- Python exception classes that this program can raise. -/
inductive PyErr where
  | valueError
  | typeError
  | attributeError
  | overflowError
deriving DecidableEq, Repr

deriving instance DecidableEq for Except

/-- Python strings, modelled as lists of characters. -/
abbrev PyStr := List Char

/-- View of a Lean string literal as a PyStr. -/
def pystr (s : String) : PyStr := s.data

/-- Python s.endswith("Z"). -/
def endsWithZ : PyStr → Bool
  | [] => false
  | [c] => c == 'Z'
  | _ :: c :: rest => endsWithZ (c :: rest)

/-- Python s.replace("Z", "+00:00"): every occurrence of Z is replaced. -/
def pyReplaceZ : PyStr → PyStr
  | [] => []
  | c :: rest =>
    if c = 'Z' then '+' :: '0' :: '0' :: ':' :: '0' :: '0' :: pyReplaceZ rest
    else c :: pyReplaceZ rest

/-- Python membership test (x in s) for a single character. -/
def pyContains : PyStr → Char → Bool
  | [], _ => false
  | c :: rest, x => c == x || pyContains rest x

/-- Numeric value of a decimal digit character. -/
def pDigit (c : Char) : Option Nat :=
  if c.isDigit then some (c.toNat - 48) else none

/-- Parse exactly four digits (the %Y field of the strptime regex). -/
def p4 : PyStr → Option (Nat × PyStr)
  | a :: b :: c :: d :: rest =>
    match pDigit a, pDigit b, pDigit c, pDigit d with
    | some x, some y, some z, some w => some (1000 * x + 100 * y + 10 * z + w, rest)
    | _, _, _, _ => none
  | _ => none

/-- Parse a greedy one or two digit field (the lax %m, %d, %H, %M, %S
fields of the CPython strptime regex, which accept one or two digits); a
run of three or more digits fails the whole match, exactly as the
backtracking regex followed by a literal separator does. -/
def p12 : PyStr → Option (Nat × PyStr)
  | [] => none
  | a :: rest =>
    match pDigit a with
    | none => none
    | some x =>
      match rest with
      | [] => some (x, [])
      | b :: rest2 =>
        match pDigit b with
        | none => some (x, b :: rest2)
        | some y =>
          match rest2 with
          | [] => some (10 * x + y, [])
          | c :: _ => if c.isDigit then none else some (10 * x + y, rest2)

/-- Parse exactly two digits (the strict fields of fromisoformat). -/
def p2 : PyStr → Option (Nat × PyStr)
  | a :: b :: rest =>
    match pDigit a, pDigit b with
    | some x, some y => some (10 * x + y, rest)
    | _, _ => none
  | _ => none

/-- Consume one expected literal character. -/
def pChar (c : Char) : PyStr → Option PyStr
  | x :: rest => if x = c then some rest else none
  | [] => none

/-- Gregorian leap year test. -/
def isLeap (y : Int) : Bool := (y % 4 == 0 && y % 100 != 0) || y % 400 == 0

/-- Number of days of a month. -/
def daysInMonth (y : Int) (m : Nat) : Nat :=
  if m = 2 then (if isLeap y then 29 else 28)
  else if m = 4 ∨ m = 6 ∨ m = 9 ∨ m = 11 then 30
  else 31

/-- A civil date and time, the model of a CPython datetime value (the
program never looks at microseconds or finer). -/
structure CivilDateTime where
  year : Int
  month : Nat
  day : Nat
  hour : Nat
  minute : Nat
  second : Nat
deriving DecidableEq, Repr

/-- Day count since 1970-01-01 of a proleptic Gregorian civil date. -/
def daysFromCivil (y : Int) (m d : Nat) : Int :=
  let y' : Int := if m ≤ 2 then y - 1 else y
  let era : Int := Int.ediv y' 400
  let yoe : Nat := (y' - era * 400).toNat
  let mp : Nat := (m + 9) % 12
  let doy : Nat := (153 * mp + 2) / 5 + d - 1
  let doe : Nat := yoe * 365 + yoe / 4 - yoe / 100 + doy
  era * 146097 + (doe : Int) - 719468

/-- Civil date of a day count since 1970-01-01. -/
def civilFromDays (z : Int) : Int × Nat × Nat :=
  let z' := z + 719468
  let era : Int := Int.ediv z' 146097
  let doe : Nat := (z' - era * 146097).toNat
  let yoe : Nat := (doe - doe / 1460 + doe / 36524 - doe / 146096) / 365
  let doy : Nat := doe - (365 * yoe + yoe / 4 - yoe / 100)
  let mp : Nat := (5 * doy + 2) / 153
  let d : Nat := doy - (153 * mp + 2) / 5 + 1
  let m : Nat := if mp < 10 then mp + 3 else mp - 9
  ((yoe : Int) + era * 400 + (if m ≤ 2 then 1 else 0), m, d)

/-- Epoch seconds of a civil date and time read as an absolute instant. -/
def toEpochSeconds (dt : CivilDateTime) : Int :=
  daysFromCivil dt.year dt.month dt.day * 86400
    + ((dt.hour * 3600 + dt.minute * 60 + dt.second : Nat) : Int)

/-- Civil date and time of an epoch second count. -/
def fromEpochSeconds (e : Int) : CivilDateTime :=
  let days := Int.ediv e 86400
  let sod : Nat := (e - days * 86400).toNat
  match civilFromDays days with
  | (y, m, d) => ⟨y, m, d, sod / 3600, sod % 3600 / 60, sod % 60⟩

/-- Epoch seconds of datetime.min, 0001-01-01T00:00:00. -/
def MIN_DATETIME : Int := daysFromCivil 1 1 1 * 86400

/-- Epoch seconds of datetime.max with microseconds dropped,
9999-12-31T23:59:59. -/
def MAX_DATETIME : Int := daysFromCivil 9999 12 31 * 86400 + 86399

/-- Fixed offset of the target zone America/Sao_Paulo, in seconds. -/
def BRASILIA_OFFSET : Int := -10800

/-- dt.astimezone(BRASILIA_TZ) for a value anchored at the given UTC
offset in seconds. CPython first computes the UTC instant (self minus
its own offset) and then applies the target zone offset; whenever an
intermediate datetime falls outside the supported range an OverflowError
is raised, and that error class is not in the except tuple of
get_brasilia_datetime, so it escapes to the caller. -/
def astimezone_brasilia (dt : CivilDateTime) (offsetSec : Int) : Except PyErr CivilDateTime :=
  let utc := toEpochSeconds dt - offsetSec
  if utc < MIN_DATETIME ∨ MAX_DATETIME < utc then .error .overflowError
  else
    let locl := utc + BRASILIA_OFFSET
    if locl < MIN_DATETIME ∨ MAX_DATETIME < locl then .error .overflowError
    else .ok (fromEpochSeconds locl)

/-- datetime.strptime(s, "%Y-%m-%dT%H:%M:%S"): four digit year, lax one
or two digit numeric fields, literal separators (the T is case
insensitive in CPython), full consumption of the input, and the range
checks of the regex and of the datetime constructor. Failure is a
ValueError, modelled as none. -/
def strptime_noms (s : PyStr) : Option CivilDateTime := do
  let (y, s) ← p4 s
  let s ← pChar '-' s
  let (mo, s) ← p12 s
  let s ← pChar '-' s
  let (d, s) ← p12 s
  let s ← (match s with
           | 'T' :: r => some r
           | 't' :: r => some r
           | _ => none)
  let (h, s) ← p12 s
  let s ← pChar ':' s
  let (mi, s) ← p12 s
  let s ← pChar ':' s
  let (sec, s) ← p12 s
  if s = [] ∧ 1 ≤ y ∧ 1 ≤ mo ∧ mo ≤ 12 ∧ 1 ≤ d ∧ d ≤ daysInMonth (y : Int) mo
      ∧ h ≤ 23 ∧ mi ≤ 59 ∧ sec ≤ 59 then
    some ⟨(y : Int), mo, d, h, mi, sec⟩
  else none

/-- Split at the first occurrence of a character, when present. -/
def splitAtFirst (x : Char) : PyStr → Option (PyStr × PyStr)
  | [] => none
  | c :: rest =>
    if c = x then some ([], rest)
    else
      match splitAtFirst x rest with
      | none => none
      | some (a, b) => some (c :: a, b)

/-- The time of day part HH[:MM[:SS]] of fromisoformat (strict two digit
fields; fractional seconds never occur on this path because it is only
reached for strings without a dot). -/
def parse_iso_time (t : PyStr) : Option (Nat × Nat × Nat) := do
  let (h, r) ← p2 t
  match r with
  | [] => some (h, 0, 0)
  | ':' :: r2 => do
    let (mi, r3) ← p2 r2
    match r3 with
    | [] => some (h, mi, 0)
    | ':' :: r4 => do
      let (sec, r5) ← p2 r4
      if r5 = [] then some (h, mi, sec) else none
    | _ => none
  | _ => none

/-- The embedded offset part HH:MM[:SS] of fromisoformat (after the
sign), returned in seconds; component ranges are not checked here, only
the shape, matching CPython. -/
def parse_iso_offset (t : PyStr) : Option Int := do
  let (oh, r) ← p2 t
  let r ← pChar ':' r
  let (om, r2) ← p2 r
  match r2 with
  | [] => some ((oh : Int) * 3600 + (om : Int) * 60)
  | ':' :: r3 => do
    let (os, r4) ← p2 r3
    if r4 = [] then some ((oh : Int) * 3600 + (om : Int) * 60 + (os : Int)) else none
  | _ => none

/-- datetime.fromisoformat restricted to strings without a dot (the only
way this program calls it): strict YYYY-MM-DD date, then optionally one
separator character of any kind followed by HH[:MM[:SS]], then
optionally an embedded offset, sign plus HH:MM[:SS], that must be
smaller than one day (the timezone constructor raises ValueError
otherwise). Returns the parsed fields and the embedded offset in
seconds, when present. -/
def fromisoformat (s : PyStr) : Option (CivilDateTime × Option Int) := do
  let (y, r) ← p4 s
  let r ← pChar '-' r
  let (mo, r) ← p2 r
  let r ← pChar '-' r
  let (d, r) ← p2 r
  if ¬(1 ≤ y ∧ 1 ≤ mo ∧ mo ≤ 12 ∧ 1 ≤ d ∧ d ≤ daysInMonth (y : Int) mo) then none
  else
    match r with
    | [] => some (⟨(y : Int), mo, d, 0, 0, 0⟩, none)
    | _ :: tstr =>
      let spl : PyStr × Int × Option PyStr :=
        match splitAtFirst '-' tstr with
        | some (a, b) => (a, -1, some b)
        | none =>
          match splitAtFirst '+' tstr with
          | some (a, b) => (a, 1, some b)
          | none => (tstr, 1, none)
      match parse_iso_time spl.1 with
      | none => none
      | some (h, mi, sec) =>
        if ¬(h ≤ 23 ∧ mi ≤ 59 ∧ sec ≤ 59) then none
        else
          match spl.2.2 with
          | none => some (⟨(y : Int), mo, d, h, mi, sec⟩, none)
          | some ostr =>
            match parse_iso_offset ostr with
            | none => none
            | some off =>
              if off < 86400 then some (⟨(y : Int), mo, d, h, mi, sec⟩, some (spl.2.1 * off))
              else none

/-- The try block of get_brasilia_datetime (lines 43 to 54): a None
argument makes the endswith attribute access raise AttributeError; a
parse failure raises ValueError; an out of range conversion raises
OverflowError. -/
def get_brasilia_datetime_try (timestamp_utc_str : Option PyStr) : Except PyErr CivilDateTime :=
  match timestamp_utc_str with
  | none => .error .attributeError
  | some s0 =>
    let s := if endsWithZ s0 then pyReplaceZ s0 else s0
    if pyContains s '.' then
      match strptime_noms (s.takeWhile (fun c => c != '.')) with
      | none => .error .valueError
      | some dt => astimezone_brasilia dt 0
    else
      match fromisoformat s with
      | none => .error .valueError
      | some (dt, off) => astimezone_brasilia dt (off.getD 0)

/-- get_brasilia_datetime (lines 41 to 57) with its except clause:
ValueError, TypeError and AttributeError become None; any other
exception (OverflowError) escapes. -/
def get_brasilia_datetime (timestamp_utc_str : Option PyStr) : Except PyErr (Option CivilDateTime) :=
  match get_brasilia_datetime_try timestamp_utc_str with
  | .ok dt => .ok (some dt)
  | .error .valueError => .ok none
  | .error .typeError => .ok none
  | .error .attributeError => .ok none
  | .error e => .error e

/-- get_roll_color_char (lines 59 to 67). In Python 3 a None argument
passes the equality test with 0 (which is simply False) and then crashes
on the chained comparison 1 <= None <= 7 with a TypeError; integer
arguments never raise. -/
def get_roll_color_char (roll_number : Option Int) : Except PyErr Char :=
  match roll_number with
  | none => .error .typeError
  | some n =>
    if n = 0 then .ok 'B'
    else if 1 ≤ n ∧ n ≤ 7 then .ok 'R'
    else if 8 ≤ n ∧ n ≤ 14 then .ok 'P'
    else .ok '?'

/-- The value of get_roll_color_char on present integers, as a pure
function (used on the specification side of the grid claims). -/
def roll_color (n : Int) : Char :=
  if n = 0 then 'B'
  else if 1 ≤ n ∧ n ≤ 7 then 'R'
  else if 8 ≤ n ∧ n ≤ 14 then 'P'
  else '?'

/-- An upstream record: the two fields the program reads, each possibly
missing. -/
structure Record where
  roll : Option Int
  created_at : Option PyStr
deriving DecidableEq, Repr

/-- Python truthiness of an optional string: present and nonempty. -/
def truthy : Option PyStr → Bool
  | none => false
  | some s => !s.isEmpty

/-- defaultdict(int) increment: an existing key is bumped in place, a
new key is appended at the end with count 1 (insertion order kept). -/
def alistIncr : List (String × Nat) → String → List (String × Nat)
  | [], k => [(k, 1)]
  | (k', v) :: rest, k =>
    if k' = k then (k', v + 1) :: rest else (k', v) :: alistIncr rest k

/-- defaultdict(list) append: an existing key gets the value appended to
its bucket in place, a new key is appended at the end with a one element
bucket. -/
def alistAppend : List (String × List String) → String → String → List (String × List String)
  | [], k, v => [(k, [v])]
  | (k', vs) :: rest, k, v =>
    if k' = k then (k', vs ++ [v]) :: rest else (k', vs) :: alistAppend rest k v

/-- Dictionary lookup. -/
def alistGet? {β : Type} : List (String × β) → String → Option β
  | [], _ => none
  | (k', v) :: rest, k => if k' = k then some v else alistGet? rest k

/-- The four character window starting at index i. -/
def seq4At (cs : PyStr) (i : Nat) : PyStr := (cs.drop i).take 4

/-- The eight motif tests of catalogar_padroes, in source order, as
pairs of dictionary key and test on the four character window. -/
def PADROES_TESTS : List (String × (PyStr → Bool)) :=
  [("R3+", fun s => ['R', 'R', 'R'].isPrefixOf s),
   ("P3+", fun s => ['P', 'P', 'P'].isPrefixOf s),
   ("R4+", fun s => s == ['R', 'R', 'R', 'R']),
   ("P4+", fun s => s == ['P', 'P', 'P', 'P']),
   ("Tira (4) R", fun s => s == ['R', 'P', 'R', 'P']),
   ("Tira (4) P", fun s => s == ['P', 'R', 'P', 'R']),
   ("2x1 R", fun s => ['R', 'R', 'P'].isPrefixOf s),
   ("2x1 P", fun s => ['P', 'P', 'R'].isPrefixOf s)]

/-- One iteration of the window loop (lines 80 to 95): every test is
evaluated independently on the window and bumps its own counter. -/
def incrPadroes (m : List (String × Nat)) (seq4 : PyStr) : List (String × Nat) :=
  PADROES_TESTS.foldl (fun m t => if t.2 seq4 then alistIncr m t.1 else m) m

/-- The window loop of catalogar_padroes plus the final dict conversion:
a window of four consecutive classes slides over indices 0 .. len - 4. -/
def count_padroes (cores_filtradas : PyStr) : List (String × Nat) :=
  (List.range (cores_filtradas.length - 3)).foldl
    (fun m i => incrPadroes m (seq4At cores_filtradas i)) []

/-- catalogar_padroes (lines 69 to 97): classify the first 90 records,
keep only R and P, return the empty dict when fewer than four remain,
otherwise count the motifs. A record without a roll value makes
get_roll_color_char raise TypeError out of the list comprehension. -/
def catalogar_padroes (resultados_list : List Record) : Except PyErr (List (String × Nat)) := do
  let cores ← (resultados_list.take 90).mapM (fun item => get_roll_color_char item.roll)
  let cores_filtradas := cores.filter (fun c => c == 'R' || c == 'P')
  if cores_filtradas.length < 4 then
    pure []
  else
    pure (count_padroes cores_filtradas)

/-- The loop of formatar_ranking_por_digito with the defaultdict state
made explicit. -/
def formatar_ranking_aux : List Record → List (String × Nat) → Except PyErr (List (String × Nat))
  | [], acc => .ok acc
  | item :: rest, acc =>
    if item.roll == some 0 && truthy item.created_at then
      match get_brasilia_datetime item.created_at with
      | .error e => .error e
      | .ok none => formatar_ranking_aux rest acc
      | .ok (some dt) => formatar_ranking_aux rest (alistIncr acc (toString (dt.minute % 10)))
    else
      formatar_ranking_aux rest acc

/-- formatar_ranking_por_digito (lines 99 to 114). -/
def formatar_ranking_por_digito (resultados_list : List Record) : Except PyErr (List (String × Nat)) :=
  formatar_ranking_aux resultados_list []

/-- The compact token "NumberColor" of the grid. -/
def formatted_roll (n : Int) (c : Char) : String := toString n ++ String.singleton c

/-- The grid building loop of fetch_and_process_blaze_data (lines 132 to
146) with the defaultdict state made explicit: a record with a truthy
created_at and a roll that is not None (0 included) whose timestamp
normalizes appends its token to the bucket of its minute digit. -/
def build_grade_aux : List Record → List (String × List String) → Except PyErr (List (String × List String))
  | [], acc => .ok acc
  | item :: rest, acc =>
    match item.created_at, item.roll with
    | some ca, some n =>
      if !ca.isEmpty then
        match get_brasilia_datetime (some ca) with
        | .error e => .error e
        | .ok none => build_grade_aux rest acc
        | .ok (some dt) =>
          match get_roll_color_char (some n) with
          | .error e => .error e
          | .ok c => build_grade_aux rest (alistAppend acc (toString (dt.minute % 10)) (formatted_roll n c))
      else build_grade_aux rest acc
    | _, _ => build_grade_aux rest acc

/-- The grid of a record list. -/
def build_grade_map (resultados_list : List Record) : Except PyErr (List (String × List String)) :=
  build_grade_aux resultados_list []

/-- The combined payload assembled by fetch_and_process_blaze_data. -/
structure AggregatedPayload where
  grade_map : List (String × List String)
  padroes : List (String × Nat)
  ranking_brancos_digito : List (String × Nat)
deriving DecidableEq, Repr

/-- The all empty fallback payload. -/
def emptyAggregated : AggregatedPayload := ⟨[], [], []⟩

def NUM_RESULTADOS_BUSCA : Nat := 200

/-- The processing part of the try block of fetch_and_process_blaze_data
after the HTTP layer: truncate to the first 200 records, build the grid,
the motif counts and the white ranking over the truncated list, in
source order (so the first exception wins). -/
def process_records (resultados_brutos : List Record) : Except PyErr AggregatedPayload := do
  let results_list := resultados_brutos.take NUM_RESULTADOS_BUSCA
  let grade_map ← build_grade_aux results_list []
  let padroes ← catalogar_padroes results_list
  let ranking ← formatar_ranking_por_digito results_list
  pure ⟨grade_map, padroes, ranking⟩

/-- The possible outcomes of the upstream fetch, as seen by the try
block: a transport error (requests raises RequestException), a non JSON
body (response.json raises ValueError), a JSON object without a records
key (slicing a dict raises TypeError), some other JSON scalar (slicing
or attribute access raises), or a usable record list, either bare or
under a records key. -/
inductive Upstream where
  | transportError
  | badJson
  | okDictNoRecords
  | okOther
  | okList (records : List Record)
  | okDictRecords (records : List Record)

/-- fetch_and_process_blaze_data (lines 117 to 168): both except clauses
return the all empty payload, so every transport or processing failure
degrades to the empty payload and nothing escapes this boundary. -/
def fetch_and_process_blaze_data (u : Upstream) : AggregatedPayload :=
  match u with
  | .transportError => emptyAggregated
  | .badJson => emptyAggregated
  | .okDictNoRecords => emptyAggregated
  | .okOther => emptyAggregated
  | .okList rs =>
    match process_records rs with
    | .ok p => p
    | .error _ => emptyAggregated
  | .okDictRecords rs =>
    match process_records rs with
    | .ok p => p
    | .error _ => emptyAggregated

def CACHE_LIFETIME_SECONDS : Int := 15

/-- The single cache slot: last population instant and stored data. The
process starts with timestamp 0 and empty data. -/
structure CacheEntry (α : Type) where
  timestamp : Int
  data : α
deriving DecidableEq, Repr

/-- One pass through the cache gate of get_grade_data (lines 179 to
191): when the age exceeds the lifetime, fetch once and overwrite both
the data and the timestamp; otherwise serve the stored data untouched.
Returns the served data, the new slot state, and the number of
fetch_and_process_blaze_data invocations made by this call. -/
def get_grade_data_cache {α : Type} (fetched : α) (current_time : Int) (c : CacheEntry α) :
    α × CacheEntry α × Nat :=
  if current_time - c.timestamp > CACHE_LIFETIME_SECONDS then
    (fetched, ⟨current_time, fetched⟩, 1)
  else
    (c.data, c, 0)

/-- Specification side predicate for the white ranking: a record bumps
digit key k exactly when it is classified zero (roll equal to 0), its
timestamp is present and nonempty, normalization succeeds, and the
minute digit of the normalized moment is k. -/
def contributes (k : String) (item : Record) : Bool :=
  (item.roll == some 0 && truthy item.created_at) &&
    (match get_brasilia_datetime item.created_at with
     | .ok (some dt) => toString (dt.minute % 10) == k
     | _ => false)

/-- Specification side view of one grid record: its digit key and token
when the timestamp is present and nonempty, the roll is present (0
included), and the timestamp normalizes; none otherwise. -/
def grid_entry (item : Record) : Option (String × String) :=
  match item.created_at, item.roll with
  | some ca, some n =>
    if ca.isEmpty then none
    else
      match get_brasilia_datetime (some ca) with
      | .ok (some dt) => some (toString (dt.minute % 10), formatted_roll n (roll_color n))
      | _ => none
  | _, _ => none

/-! Helper lemmas about the string model. -/

lemma endsWithZ_append_cons (a : PyStr) (c : Char) (b : PyStr) :
    endsWithZ (a ++ c :: b) = endsWithZ (c :: b) := by
  induction a with
  | nil => rfl
  | cons x xs ih =>
    cases xs with
    | nil => simp [endsWithZ]
    | cons y ys => simpa [endsWithZ] using ih

lemma pyContains_append (a b : PyStr) (x : Char) :
    pyContains (a ++ b) x = (pyContains a x || pyContains b x) := by
  induction a with
  | nil => simp [pyContains]
  | cons c cs ih => simp [pyContains, ih, Bool.or_assoc]

lemma pyReplaceZ_append (a b : PyStr) :
    pyReplaceZ (a ++ b) = pyReplaceZ a ++ pyReplaceZ b := by
  induction a with
  | nil => rfl
  | cons c cs ih => by_cases h : c = 'Z' <;> simp [pyReplaceZ, h, ih]

lemma pyReplaceZ_no_z (a : PyStr) (h : pyContains a 'Z' = false) : pyReplaceZ a = a := by
  induction a with
  | nil => rfl
  | cons c cs ih =>
    rw [pyContains] at h
    simp only [Bool.or_eq_false_iff, beq_eq_false_iff_ne, ne_eq] at h
    simp [pyReplaceZ, h.1, ih h.2]

lemma takeWhile_append_dot (a b : PyStr) (h : pyContains a '.' = false) :
    (a ++ '.' :: b).takeWhile (fun c => c != '.') = a := by
  induction a with
  | nil => simp
  | cons c cs ih =>
    rw [pyContains] at h
    simp only [Bool.or_eq_false_iff, beq_eq_false_iff_ne, ne_eq] at h
    simp [List.takeWhile_cons, bne_iff_ne, h.1, ih h.2]

/-! Helper lemmas about the dictionary model. -/

lemma alistIncr_get (m : List (String × Nat)) (k k' : String) :
    alistGet? (alistIncr m k) k' =
      if k' = k then some ((alistGet? m k').getD 0 + 1) else alistGet? m k' := by
  induction m with
  | nil =>
    by_cases h : k' = k
    · simp [alistIncr, alistGet?, h]
    · have h2 : ¬k = k' := fun hh => h hh.symm
      simp [alistIncr, alistGet?, h, h2]
  | cons p rest ih =>
    obtain ⟨a, v⟩ := p
    by_cases hak : a = k
    · subst hak
      by_cases h : k' = a
      · subst h
        simp [alistIncr, alistGet?]
      · have h2 : ¬a = k' := fun hh => h hh.symm
        simp [alistIncr, alistGet?, h, h2]
    · by_cases h : k' = a
      · subst h
        have h2 : ¬k' = k := fun hh => hak (hh.symm ▸ rfl)
        simp [alistIncr, alistGet?, hak, h2]
      · have h2 : ¬a = k' := fun hh => h hh.symm
        simp [alistIncr, alistGet?, hak, h, h2, ih]

lemma alistAppend_get (m : List (String × List String)) (k k' : String) (v : String) :
    alistGet? (alistAppend m k v) k' =
      if k' = k then some ((alistGet? m k').getD [] ++ [v]) else alistGet? m k' := by
  induction m with
  | nil =>
    by_cases h : k' = k
    · simp [alistAppend, alistGet?, h]
    · have h2 : ¬k = k' := fun hh => h hh.symm
      simp [alistAppend, alistGet?, h, h2]
  | cons p rest ih =>
    obtain ⟨a, vs⟩ := p
    by_cases hak : a = k
    · subst hak
      by_cases h : k' = a
      · subst h
        simp [alistAppend, alistGet?]
      · have h2 : ¬a = k' := fun hh => h hh.symm
        simp [alistAppend, alistGet?, h, h2]
    · by_cases h : k' = a
      · subst h
        have h2 : ¬k' = k := fun hh => hak (hh.symm ▸ rfl)
        simp [alistAppend, alistGet?, hak, h2]
      · have h2 : ¬a = k' := fun hh => h hh.symm
        simp [alistAppend, alistGet?, hak, h, h2, ih]

lemma get_roll_color_char_some (n : Int) :
    get_roll_color_char (some n) = .ok (roll_color n) := by
  simp only [get_roll_color_char, roll_color]
  split_ifs <;> rfl

/-! Helper lemma for the fractional truncation path of the time
normalizer. -/

lemma gbd_try_dot (base junk : PyStr) (h1 : pyContains base '.' = false)
    (h2 : pyContains base 'Z' = false) :
    get_brasilia_datetime_try (some (base ++ '.' :: junk)) =
      (match strptime_noms base with
       | none => Except.error PyErr.valueError
       | some dt => astimezone_brasilia dt 0) := by
  have hdot : pyContains (base ++ '.' :: junk) '.' = true := by
    simp [pyContains_append, pyContains]
  cases hz : endsWithZ ('.' :: junk) with
  | false =>
    simp only [get_brasilia_datetime_try, endsWithZ_append_cons, hz, if_false,
      Bool.false_eq_true, ite_false, hdot, ite_true, takeWhile_append_dot base junk h1]
  | true =>
    have hrep : pyReplaceZ (base ++ '.' :: junk) = base ++ '.' :: pyReplaceZ junk := by
      rw [pyReplaceZ_append, pyReplaceZ_no_z base h2]
      simp [pyReplaceZ]
    have hdot2 : pyContains (base ++ '.' :: pyReplaceZ junk) '.' = true := by
      simp [pyContains_append, pyContains]
    simp only [get_brasilia_datetime_try, endsWithZ_append_cons, hz, ite_true, hrep,
      hdot2, takeWhile_append_dot base (pyReplaceZ junk) h1]

/-! Claim theorems. -/

/-- C1: one pass through the FreshnessCache gate. Under a real wall
clock every call instant exceeds the 15 second lifetime (hclock), and a
slot has been populated exactly when its timestamp is nonzero (the
initial slot carries timestamp 0 and every population overwrites it with
the call instant). Part one: age at most the lifetime on a populated
slot serves the stored payload unchanged with no fetch. Part two:
otherwise exactly one aggregation runs and both payload and timestamp
are overwritten with the fetched value, whatever it is, the empty
fallback included. Part three: after any overwrite, a call within the
lifetime serves the stored value again with no fetch, so a failed fetch
still resets the clock and two calls within the lifetime return the
identical payload with a single upstream call. -/
theorem cache_ttl_gate {α : Type} (fetched : α) (current_time : Int)
    (c : CacheEntry α) (hclock : CACHE_LIFETIME_SECONDS < current_time) :
    ((c.timestamp ≠ 0 ∧ current_time - c.timestamp ≤ CACHE_LIFETIME_SECONDS) →
        get_grade_data_cache fetched current_time c = (c.data, c, 0))
    ∧ (¬(c.timestamp ≠ 0 ∧ current_time - c.timestamp ≤ CACHE_LIFETIME_SECONDS) →
        get_grade_data_cache fetched current_time c = (fetched, ⟨current_time, fetched⟩, 1))
    ∧ (∀ (fetched2 : α) (t2 : Int), t2 - current_time ≤ CACHE_LIFETIME_SECONDS →
        get_grade_data_cache fetched2 t2 ⟨current_time, fetched⟩
          = (fetched, ⟨current_time, fetched⟩, 0)) := by
  refine ⟨?_, ?_, ?_⟩
  · rintro ⟨-, hage⟩
    simp only [get_grade_data_cache]
    rw [if_neg (by omega)]
  · intro hmiss
    push_neg at hmiss
    simp only [get_grade_data_cache]
    by_cases hts : c.timestamp = 0
    · rw [if_pos (by omega)]
    · rw [if_pos (by have := hmiss hts; omega)]
  · intro fetched2 t2 h2
    simp only [get_grade_data_cache]
    rw [if_neg (show ¬(t2 - current_time > CACHE_LIFETIME_SECONDS) from by omega)]

/-- Witness for cache_ttl_gate at concrete inputs: the never populated
initial slot at instant 100 fetches and overwrites; a second call at
instant 110 serves the stored value with no further fetch. -/
theorem cache_ttl_gate_witness :
    get_grade_data_cache (7 : Nat) 100 ⟨0, 0⟩ = (7, ⟨100, 7⟩, 1)
    ∧ get_grade_data_cache (9 : Nat) 110 ⟨100, 7⟩ = (7, ⟨100, 7⟩, 0) := by
  constructor
  · exact (cache_ttl_gate (α := Nat) 7 100 ⟨0, 0⟩ (by decide)).2.1 (by decide)
  · exact (cache_ttl_gate (α := Nat) 7 100 ⟨0, 0⟩ (by decide)).2.2 9 110 (by decide)

/-- C2: fetch_and_process_blaze_data never lets an exception past its
boundary: a transport failure and every malformed body shape return the
all empty payload; a record list whose processing raises any exception
also returns the all empty payload; and a clean processing run returns
its payload unchanged. -/
theorem fetch_fail_soft :
    fetch_and_process_blaze_data .transportError = emptyAggregated
    ∧ fetch_and_process_blaze_data .badJson = emptyAggregated
    ∧ fetch_and_process_blaze_data .okDictNoRecords = emptyAggregated
    ∧ fetch_and_process_blaze_data .okOther = emptyAggregated
    ∧ (∀ (rs : List Record) (e : PyErr), process_records rs = .error e →
        fetch_and_process_blaze_data (.okList rs) = emptyAggregated
        ∧ fetch_and_process_blaze_data (.okDictRecords rs) = emptyAggregated)
    ∧ (∀ (rs : List Record) (p : AggregatedPayload), process_records rs = .ok p →
        fetch_and_process_blaze_data (.okList rs) = p
        ∧ fetch_and_process_blaze_data (.okDictRecords rs) = p) := by
  refine ⟨rfl, rfl, rfl, rfl, ?_, ?_⟩
  · intro rs e h
    constructor <;> simp [fetch_and_process_blaze_data, h]
  · intro rs p h
    constructor <;> simp [fetch_and_process_blaze_data, h]

/-- Witness: a record whose roll is missing makes catalogar_padroes
raise TypeError inside process_records, and the boundary converts that
into the all empty payload. -/
theorem fetch_fail_soft_witness :
    fetch_and_process_blaze_data (.okList [⟨none, some (pystr "x")⟩]) = emptyAggregated :=
  (fetch_fail_soft.2.2.2.2.1 [⟨none, some (pystr "x")⟩] .typeError (by decide)).1

/-- C3: the end to end scenario: the two record feed with rolls 0 and 10
at 12:03 UTC gives grid key 3 with the tokens 0B and 10P in feed order,
white ranking 1 at key 3, and no pattern counts (only one non white
class remains, fewer than four). -/
theorem end_to_end_two_records :
    fetch_and_process_blaze_data (.okList
      [⟨some 0, some (pystr "2024-01-01T12:03:00.000Z")⟩,
       ⟨some 10, some (pystr "2024-01-01T12:03:05Z")⟩])
      = ⟨[("3", ["0B", "10P"])], [], [("3", 1)]⟩ := by decide

/-- C4: get_roll_color_char at the documented sample points: 0 gives B,
1 and 7 give R, 8 and 14 give P, 15 and -1 give the unknown marker, and
present integers never raise; but a missing roll (None) does not give
the unknown marker: the chained comparison 1 <= None <= 7 raises
TypeError, contradicting the claim that the classifier is total. -/
theorem roll_color_char_cases :
    get_roll_color_char (some 0) = .ok 'B'
    ∧ get_roll_color_char (some 1) = .ok 'R'
    ∧ get_roll_color_char (some 7) = .ok 'R'
    ∧ get_roll_color_char (some 8) = .ok 'P'
    ∧ get_roll_color_char (some 14) = .ok 'P'
    ∧ get_roll_color_char (some 15) = .ok '?'
    ∧ get_roll_color_char (some (-1)) = .ok '?'
    ∧ (∀ n : Int, get_roll_color_char (some n) = .ok (roll_color n))
    ∧ get_roll_color_char none = .error .typeError := by
  exact ⟨by decide, by decide, by decide, by decide, by decide, by decide, by decide,
    get_roll_color_char_some, rfl⟩

/-- C5 counterexample: a syntactically valid timestamp near the lower
bound of the supported datetime range makes the zone conversion
overflow, and OverflowError is not in the except tuple, so
get_brasilia_datetime raises to its caller instead of returning no
result. -/
theorem gbd_overflow_escape :
    get_brasilia_datetime (some (pystr "0001-01-01T00:00:00Z")) = .error .overflowError := by
  decide

/-- C5 (amended): for every input the normalizer returns a moment,
returns no result, or raises OverflowError from an out of range
conversion; every caught failure (ValueError from a parse failure,
TypeError, AttributeError from a missing input) yields no result rather
than an exception, and the listed malformed inputs, the empty string,
non date text and None, all yield no result. -/
theorem gbd_fail_soft_amended :
    (∀ ts : Option PyStr, (∃ r, get_brasilia_datetime ts = .ok r)
        ∨ get_brasilia_datetime ts = .error .overflowError)
    ∧ (∀ (ts : Option PyStr) (e : PyErr), get_brasilia_datetime_try ts = .error e →
        e ≠ .overflowError → get_brasilia_datetime ts = .ok none)
    ∧ get_brasilia_datetime none = .ok none
    ∧ get_brasilia_datetime (some (pystr "")) = .ok none
    ∧ get_brasilia_datetime (some (pystr "not a date")) = .ok none := by
  refine ⟨?_, ?_, rfl, by decide, by decide⟩
  · intro ts
    cases h : get_brasilia_datetime_try ts with
    | ok dt => exact Or.inl ⟨some dt, by simp [get_brasilia_datetime, h]⟩
    | error e =>
      cases e with
      | valueError => exact Or.inl ⟨none, by simp [get_brasilia_datetime, h]⟩
      | typeError => exact Or.inl ⟨none, by simp [get_brasilia_datetime, h]⟩
      | attributeError => exact Or.inl ⟨none, by simp [get_brasilia_datetime, h]⟩
      | overflowError => exact Or.inr (by simp [get_brasilia_datetime, h])
  · intro ts e h hne
    cases e with
    | valueError => simp [get_brasilia_datetime, h]
    | typeError => simp [get_brasilia_datetime, h]
    | attributeError => simp [get_brasilia_datetime, h]
    | overflowError => exact absurd rfl hne

/-- Witness: a date in the wrong format fails the parse with ValueError
and the caught failure becomes no result. -/
theorem gbd_fail_soft_amended_witness :
    get_brasilia_datetime (some (pystr "12/31/2024")) = .ok none :=
  gbd_fail_soft_amended.2.1 (some (pystr "12/31/2024")) .valueError (by decide) (by decide)

/-- C6: when the timestamp contains a fractional seconds dot, the Z
substitution happens first and the string is then truncated at the
first dot, the prefix being parsed with the fixed format and treated as
already UTC: the try body equals the fixed parse of the dot free prefix
converted from UTC, and the overall result does not depend on anything
after the dot, so any offset marker there (the substituted +00:00 and
any explicit offset alike) is discarded. -/
theorem fractional_truncation_utc (base junk : PyStr)
    (h1 : pyContains base '.' = false) (h2 : pyContains base 'Z' = false) :
    get_brasilia_datetime_try (some (base ++ '.' :: junk)) =
      (match strptime_noms base with
       | none => Except.error PyErr.valueError
       | some dt => astimezone_brasilia dt 0)
    ∧ ∀ junk2 : PyStr,
        get_brasilia_datetime (some (base ++ '.' :: junk)) =
          get_brasilia_datetime (some (base ++ '.' :: junk2)) := by
  refine ⟨gbd_try_dot base junk h1 h2, ?_⟩
  intro junk2
  simp only [get_brasilia_datetime]
  rw [gbd_try_dot base junk h1 h2, gbd_try_dot base junk2 h1 h2]

/-- Witness: a fractional timestamp with an explicit nonzero offset: the
offset after the dot is discarded, the prefix is read as UTC, and the
Brasilia result is exactly three hours earlier. -/
theorem fractional_truncation_utc_witness :
    get_brasilia_datetime_try (some (pystr "2024-01-01T09:03:07" ++ '.' :: pystr "123+05:30")) =
      .ok ⟨2024, 1, 1, 6, 3, 7⟩ := by
  rw [(fractional_truncation_utc (pystr "2024-01-01T09:03:07") (pystr "123+05:30")
    (by decide) (by decide)).1]
  decide

/-- C7: a single record without a roll makes the classification inside
catalogar_padroes raise TypeError instead of dropping the element as
Unknown, so the promised empty dict is never produced; with all rolls
present the behavior matches the claim: only the first 90 records are
classified (a 91st record with a missing roll is ignored, and ninety
zero rolls all drop out, giving the empty dict), and zero or unknown
classes are dropped with relative order kept (rolls 1, 0, 15, 8, 1, 8
leave R P R P, one alternating window). -/
theorem catalogar_missing_roll_eval :
    catalogar_padroes [⟨none, none⟩] = .error .typeError
    ∧ catalogar_padroes (List.replicate 90 ⟨some 0, none⟩ ++ [⟨none, none⟩]) = .ok []
    ∧ catalogar_padroes
        [⟨some 1, none⟩, ⟨some 0, none⟩, ⟨some 15, none⟩, ⟨some 8, none⟩,
         ⟨some 1, none⟩, ⟨some 8, none⟩] = .ok [("Tira (4) R", 1)] := by
  exact ⟨rfl, by decide, by decide⟩

/-! Helper lemmas for the window scan of the pattern catalog. -/

lemma foldl_tests_get (s : PyStr) (k : String) (tests : List (String × (PyStr → Bool))) :
    ∀ m : List (String × Nat),
      alistGet? (tests.foldl (fun acc t => if t.2 s then alistIncr acc t.1 else acc) m) k =
        (match alistGet? m k with
         | some v => some (v + tests.countP (fun t => t.1 == k && t.2 s))
         | none =>
           if tests.countP (fun t => t.1 == k && t.2 s) = 0 then none
           else some (tests.countP (fun t => t.1 == k && t.2 s))) := by
  induction tests with
  | nil =>
    intro m
    cases h : alistGet? m k <;> simp [h]
  | cons t rest ih =>
    intro m
    rw [List.foldl_cons, List.countP_cons]
    by_cases ht : t.2 s = true
    · by_cases hk : t.1 = k
      · subst hk
        rw [if_pos ht, ih (alistIncr m t.1), alistIncr_get]
        simp only [if_pos rfl, ht, Bool.and_true, beq_self_eq_true, if_true]
        cases hm : alistGet? m t.1 <;> simp [hm] <;> omega
      · have hk2 : ¬k = t.1 := fun hh => hk hh.symm
        have hhead : (t.1 == k && t.2 s) = false := by simp [hk]
        rw [if_pos ht, ih (alistIncr m t.1), alistIncr_get, if_neg hk2, hhead]
        simp
    · have ht2 : t.2 s = false := by rwa [Bool.not_eq_true] at ht
      have hhead : (t.1 == k && t.2 s) = false := by rw [ht2]; simp
      rw [if_neg ht, ih m, hhead]
      simp

lemma foldl_windows_get (k : String) (ws : List PyStr) :
    ∀ m : List (String × Nat),
      alistGet? (ws.foldl incrPadroes m) k =
        (match alistGet? m k with
         | some v =>
           some (v + (ws.map (fun w => PADROES_TESTS.countP (fun t => t.1 == k && t.2 w))).sum)
         | none =>
           if (ws.map (fun w => PADROES_TESTS.countP (fun t => t.1 == k && t.2 w))).sum = 0
           then none
           else some ((ws.map (fun w => PADROES_TESTS.countP (fun t => t.1 == k && t.2 w))).sum)) := by
  induction ws with
  | nil =>
    intro m
    cases h : alistGet? m k <;> simp [h]
  | cons w rest ih =>
    intro m
    rw [List.foldl_cons, List.map_cons, List.sum_cons]
    have hstep : alistGet? (incrPadroes m w) k =
        (match alistGet? m k with
         | some v => some (v + PADROES_TESTS.countP (fun t => t.1 == k && t.2 w))
         | none =>
           if PADROES_TESTS.countP (fun t => t.1 == k && t.2 w) = 0 then none
           else some (PADROES_TESTS.countP (fun t => t.1 == k && t.2 w))) :=
      foldl_tests_get w k PADROES_TESTS m
    rw [ih (incrPadroes m w), hstep]
    cases hm : alistGet? m k with
    | some v => simp [Nat.add_assoc]
    | none =>
      by_cases hc1 : PADROES_TESTS.countP (fun t => t.1 == k && t.2 w) = 0
      · simp [hc1]
      · simp [hc1, Nat.add_eq_zero]

lemma sum_map_indicator {α : Type} (q : α → Bool) (l : List α) :
    (l.map (fun a => if q a then 1 else 0)).sum = l.countP q := by
  induction l with
  | nil => rfl
  | cons a rest ih =>
    by_cases h : q a
    · simp [List.countP_cons, h, ih]
      omega
    · simp [List.countP_cons, h, ih]

lemma count_padroes_get (K : String) (q : PyStr → Bool)
    (hq : ∀ w, PADROES_TESTS.countP (fun t => t.1 == K && t.2 w) = if q w then 1 else 0)
    (cs : PyStr) :
    alistGet? (count_padroes cs) K =
      (if (List.range (cs.length - 3)).countP (fun i => q (seq4At cs i)) = 0 then none
       else some ((List.range (cs.length - 3)).countP (fun i => q (seq4At cs i)))) := by
  have h0 : count_padroes cs
      = ((List.range (cs.length - 3)).map (seq4At cs)).foldl incrPadroes [] :=
    (List.foldl_map (seq4At cs) incrPadroes (List.range (cs.length - 3)) []).symm
  have hsum :
      (((List.range (cs.length - 3)).map (seq4At cs)).map
          (fun w => PADROES_TESTS.countP (fun t => t.1 == K && t.2 w))).sum
        = (List.range (cs.length - 3)).countP (fun i => q (seq4At cs i)) := by
    rw [List.map_map]
    have hfun : ((fun w => PADROES_TESTS.countP (fun t => t.1 == K && t.2 w)) ∘ seq4At cs)
        = fun i => if q (seq4At cs i) then 1 else 0 := by
      funext i
      exact hq (seq4At cs i)
    rw [hfun, sum_map_indicator]
  rw [h0, foldl_windows_get K, hsum]
  simp [alistGet?]

/-- C8: the window scan of the pattern catalog: a window of four
consecutive filtered classes slides over start indices 0 .. len - 4
(List.range (len - 3)), and each of the eight motif tests is evaluated
independently on every window, so one window may bump several counters;
the final count of each motif is exactly the number of windows
satisfying its test, the key being absent exactly when that count is
zero. In particular the filtered sequence R R R R yields both R3+ = 1
and R4+ = 1, while R R R P yields R3+ = 1 and no R4+ entry. -/
theorem padroes_window_scan :
    (∀ cs : PyStr, alistGet? (count_padroes cs) "R3+" =
      (if (List.range (cs.length - 3)).countP
            (fun i => ['R', 'R', 'R'].isPrefixOf (seq4At cs i)) = 0 then none
       else some ((List.range (cs.length - 3)).countP
            (fun i => ['R', 'R', 'R'].isPrefixOf (seq4At cs i)))))
    ∧ (∀ cs : PyStr, alistGet? (count_padroes cs) "P3+" =
      (if (List.range (cs.length - 3)).countP
            (fun i => ['P', 'P', 'P'].isPrefixOf (seq4At cs i)) = 0 then none
       else some ((List.range (cs.length - 3)).countP
            (fun i => ['P', 'P', 'P'].isPrefixOf (seq4At cs i)))))
    ∧ (∀ cs : PyStr, alistGet? (count_padroes cs) "R4+" =
      (if (List.range (cs.length - 3)).countP
            (fun i => seq4At cs i == ['R', 'R', 'R', 'R']) = 0 then none
       else some ((List.range (cs.length - 3)).countP
            (fun i => seq4At cs i == ['R', 'R', 'R', 'R']))))
    ∧ (∀ cs : PyStr, alistGet? (count_padroes cs) "P4+" =
      (if (List.range (cs.length - 3)).countP
            (fun i => seq4At cs i == ['P', 'P', 'P', 'P']) = 0 then none
       else some ((List.range (cs.length - 3)).countP
            (fun i => seq4At cs i == ['P', 'P', 'P', 'P']))))
    ∧ (∀ cs : PyStr, alistGet? (count_padroes cs) "Tira (4) R" =
      (if (List.range (cs.length - 3)).countP
            (fun i => seq4At cs i == ['R', 'P', 'R', 'P']) = 0 then none
       else some ((List.range (cs.length - 3)).countP
            (fun i => seq4At cs i == ['R', 'P', 'R', 'P']))))
    ∧ (∀ cs : PyStr, alistGet? (count_padroes cs) "Tira (4) P" =
      (if (List.range (cs.length - 3)).countP
            (fun i => seq4At cs i == ['P', 'R', 'P', 'R']) = 0 then none
       else some ((List.range (cs.length - 3)).countP
            (fun i => seq4At cs i == ['P', 'R', 'P', 'R']))))
    ∧ (∀ cs : PyStr, alistGet? (count_padroes cs) "2x1 R" =
      (if (List.range (cs.length - 3)).countP
            (fun i => ['R', 'R', 'P'].isPrefixOf (seq4At cs i)) = 0 then none
       else some ((List.range (cs.length - 3)).countP
            (fun i => ['R', 'R', 'P'].isPrefixOf (seq4At cs i)))))
    ∧ (∀ cs : PyStr, alistGet? (count_padroes cs) "2x1 P" =
      (if (List.range (cs.length - 3)).countP
            (fun i => ['P', 'P', 'R'].isPrefixOf (seq4At cs i)) = 0 then none
       else some ((List.range (cs.length - 3)).countP
            (fun i => ['P', 'P', 'R'].isPrefixOf (seq4At cs i)))))
    ∧ catalogar_padroes
        [⟨some 1, none⟩, ⟨some 1, none⟩, ⟨some 1, none⟩, ⟨some 1, none⟩]
        = .ok [("R3+", 1), ("R4+", 1)]
    ∧ catalogar_padroes
        [⟨some 1, none⟩, ⟨some 1, none⟩, ⟨some 1, none⟩, ⟨some 8, none⟩]
        = .ok [("R3+", 1)] := by
  refine ⟨?_, ?_, ?_, ?_, ?_, ?_, ?_, ?_, by decide, by decide⟩
  · exact count_padroes_get "R3+" (fun w => ['R', 'R', 'R'].isPrefixOf w)
      (fun w => by cases h : ['R', 'R', 'R'].isPrefixOf w <;>
        simp [PADROES_TESTS, List.countP_cons, h])
  · exact count_padroes_get "P3+" (fun w => ['P', 'P', 'P'].isPrefixOf w)
      (fun w => by cases h : ['P', 'P', 'P'].isPrefixOf w <;>
        simp [PADROES_TESTS, List.countP_cons, h])
  · exact count_padroes_get "R4+" (fun w => w == ['R', 'R', 'R', 'R'])
      (fun w => by cases h : w == ['R', 'R', 'R', 'R'] <;>
        simp [PADROES_TESTS, List.countP_cons, h])
  · exact count_padroes_get "P4+" (fun w => w == ['P', 'P', 'P', 'P'])
      (fun w => by cases h : w == ['P', 'P', 'P', 'P'] <;>
        simp [PADROES_TESTS, List.countP_cons, h])
  · exact count_padroes_get "Tira (4) R" (fun w => w == ['R', 'P', 'R', 'P'])
      (fun w => by cases h : w == ['R', 'P', 'R', 'P'] <;>
        simp [PADROES_TESTS, List.countP_cons, h])
  · exact count_padroes_get "Tira (4) P" (fun w => w == ['P', 'R', 'P', 'R'])
      (fun w => by cases h : w == ['P', 'R', 'P', 'R'] <;>
        simp [PADROES_TESTS, List.countP_cons, h])
  · exact count_padroes_get "2x1 R" (fun w => ['R', 'R', 'P'].isPrefixOf w)
      (fun w => by cases h : ['R', 'R', 'P'].isPrefixOf w <;>
        simp [PADROES_TESTS, List.countP_cons, h])
  · exact count_padroes_get "2x1 P" (fun w => ['P', 'P', 'R'].isPrefixOf w)
      (fun w => by cases h : ['P', 'P', 'R'].isPrefixOf w <;>
        simp [PADROES_TESTS, List.countP_cons, h])

/-! Helper lemma for the white ranking. -/

lemma formatar_aux_get (k : String) (l : List Record) :
    ∀ acc m : List (String × Nat), formatar_ranking_aux l acc = .ok m →
      alistGet? m k =
        (match alistGet? acc k with
         | some v => some (v + l.countP (contributes k))
         | none =>
           if l.countP (contributes k) = 0 then none
           else some (l.countP (contributes k))) := by
  induction l with
  | nil =>
    intro acc m h
    simp only [formatar_ranking_aux, Except.ok.injEq] at h
    subst h
    cases hacc : alistGet? acc k <;> simp [hacc]
  | cons item rest ih =>
    intro acc m h
    rw [List.countP_cons]
    simp only [formatar_ranking_aux] at h
    by_cases hcond : (item.roll == some 0 && truthy item.created_at) = true
    · rw [if_pos hcond] at h
      cases hg : get_brasilia_datetime item.created_at with
      | error e =>
        rw [hg] at h
        simp at h
      | ok o =>
        rw [hg] at h
        cases o with
        | none =>
          simp only [] at h
          have hc : contributes k item = false := by
            simp [contributes, hg]
          rw [ih acc m h, hc]
          simp
        | some dt =>
          simp only [] at h
          rw [ih _ _ h, alistIncr_get]
          have hc : contributes k item = (toString (dt.minute % 10) == k) := by
            simp only [contributes, hg, hcond, Bool.true_and]
          rw [hc]
          by_cases hk : k = toString (dt.minute % 10)
          · subst hk
            rw [if_pos rfl]
            cases hacc : alistGet? acc (toString (dt.minute % 10)) <;> simp [hacc] <;> omega
          · have hbeq : (toString (dt.minute % 10) == k) = false := by
              simp only [beq_eq_false_iff_ne, ne_eq]
              exact fun hh => hk hh.symm
            rw [if_neg hk, hbeq]
            simp
    · rw [if_neg hcond] at h
      have hcf : (item.roll == some 0 && truthy item.created_at) = false := by
        rwa [Bool.not_eq_true] at hcond
      have hc : contributes k item = false := by
        simp [contributes, hcf]
      rw [ih acc m h, hc]
      simp

/-- C9 counterexample: a single zero record with a timestamp at the
lower edge of the datetime range is not silently skipped: the whole
ranking computation raises OverflowError, so no DigitRankingPayload is
produced at all. -/
theorem ranking_overflow_raises :
    formatar_ranking_por_digito [⟨some 0, some (pystr "0001-01-01T00:00:00Z")⟩]
      = .error .overflowError := by decide

/-- C9 (amended): whenever the white ranking computation returns (no
record raises OverflowError), the count at a digit key equals the
number of records with roll 0, a present nonempty timestamp and a
successful normalization whose minute digit is that key; the key is
present exactly when that count is positive; records of any other roll
never contribute, and records whose timestamp is missing or fails to
normalize (in the caught way) are silently skipped. -/
theorem ranking_characterization (l : List Record) (m : List (String × Nat))
    (h : formatar_ranking_por_digito l = .ok m) (k : String) :
    alistGet? m k =
      (if l.countP (contributes k) = 0 then none else some (l.countP (contributes k))) := by
  have h2 := formatar_aux_get k l [] m h
  simpa [alistGet?] using h2

/-- Witness: one zero record whose normalized minute is 23 contributes
one count at digit key 3. -/
theorem ranking_characterization_witness :
    alistGet? [("3", 1)] "3" = some 1
    ∧ formatar_ranking_por_digito [⟨some 0, some (pystr "2024-01-01T12:23:00.000Z")⟩]
        = .ok [("3", 1)] := by
  constructor
  · have h := ranking_characterization
      [⟨some 0, some (pystr "2024-01-01T12:23:00.000Z")⟩] [("3", 1)] (by decide) "3"
    have hc : ([(⟨some 0, some (pystr "2024-01-01T12:23:00.000Z")⟩ : Record)].countP
        (contributes "3")) = 1 := by decide
    rw [hc] at h
    simpa using h
  · decide

/-! Helper lemma for the grid building loop. -/

lemma build_grade_aux_get (d : String) (l : List Record) :
    ∀ acc g : List (String × List String), build_grade_aux l acc = .ok g →
      (alistGet? g d).getD [] =
        (alistGet? acc d).getD []
          ++ ((l.filterMap grid_entry).filter (fun p => p.1 == d)).map (fun p => p.2) := by
  induction l with
  | nil =>
    intro acc g h
    simp only [build_grade_aux, Except.ok.injEq] at h
    subst h
    simp
  | cons item rest ih =>
    intro acc g h
    obtain ⟨ro, ca⟩ := item
    cases ca with
    | none =>
      simp only [build_grade_aux] at h
      rw [ih acc g h]
      have hge : grid_entry ⟨ro, none⟩ = none := by
        cases ro <;> simp [grid_entry]
      simp [List.filterMap_cons, hge]
    | some ca0 =>
      cases ro with
      | none =>
        simp only [build_grade_aux] at h
        rw [ih acc g h]
        have hge : grid_entry ⟨none, some ca0⟩ = none := by simp [grid_entry]
        simp [List.filterMap_cons, hge]
      | some n =>
        by_cases hemp : ca0.isEmpty = true
        · simp only [build_grade_aux, hemp, Bool.not_true, Bool.false_eq_true, if_false] at h
          rw [ih acc g h]
          have hge : grid_entry ⟨some n, some ca0⟩ = none := by simp [grid_entry, hemp]
          simp [List.filterMap_cons, hge]
        · have hemp2 : ca0.isEmpty = false := by rwa [Bool.not_eq_true] at hemp
          cases hg : get_brasilia_datetime (some ca0) with
          | error e =>
            simp only [build_grade_aux, hemp2, Bool.not_false, if_true, hg] at h
            simp at h
          | ok o =>
            cases o with
            | none =>
              simp only [build_grade_aux, hemp2, Bool.not_false, if_true, hg] at h
              rw [ih acc g h]
              have hge : grid_entry ⟨some n, some ca0⟩ = none := by
                simp [grid_entry, hemp2, hg]
              simp [List.filterMap_cons, hge]
            | some dt =>
              simp only [build_grade_aux, hemp2, Bool.not_false, if_true, hg,
                get_roll_color_char_some] at h
              rw [ih _ _ h, alistAppend_get]
              have hge : grid_entry ⟨some n, some ca0⟩
                  = some (toString (dt.minute % 10), formatted_roll n (roll_color n)) := by
                simp [grid_entry, hemp2, hg]
              rw [List.filterMap_cons, hge]
              by_cases hk : d = toString (dt.minute % 10)
              · subst hk
                rw [if_pos rfl]
                simp [List.filter_cons]
              · have hbeq : (toString (dt.minute % 10) == d) = false := by
                  simp only [beq_eq_false_iff_ne, ne_eq]
                  exact fun hh => hk hh.symm
                rw [if_neg hk]
                simp [List.filter_cons, hbeq]

/-- C10 counterexample: one good record alone contributes its token, but
adding a record whose timestamp conversion overflows does not merely
skip the bad record: the whole aggregation collapses to the all empty
payload, so the good record loses its token too, against the claim that
failing records are skipped individually. -/
theorem grade_overflow_poisons :
    fetch_and_process_blaze_data (.okList
      [⟨some 5, some (pystr "2024-01-01T12:03:00.000Z")⟩])
      = ⟨[("3", ["5R"])], [], []⟩
    ∧ fetch_and_process_blaze_data (.okList
      [⟨some 5, some (pystr "2024-01-01T12:03:00.000Z")⟩,
       ⟨some 5, some (pystr "0001-01-01T00:00:00Z")⟩])
      = emptyAggregated := by
  exact ⟨by decide, by decide⟩

/-- C10 (amended): whenever the grid loop returns (no record raises
OverflowError during normalization), the bucket at each digit key holds
exactly the tokens of the records with a present nonempty (truthy)
timestamp, a present roll (the test is roll is not None, so roll 0 is
included), and a successful normalization whose minute digit is that
key, in feed order; a record failing any of the conditions is skipped
individually without affecting the others. -/
theorem grade_characterization (rs : List Record) (g : List (String × List String))
    (h : build_grade_map rs = .ok g) (d : String) :
    (alistGet? g d).getD [] =
      ((rs.filterMap grid_entry).filter (fun p => p.1 == d)).map (fun p => p.2) := by
  have h2 := build_grade_aux_get d rs [] g h
  simpa [alistGet?] using h2

/-- Witness: a zero roll record and a ten roll record contribute tokens
0B and 10P to key 3 in feed order, while a record with a missing roll,
one with a missing timestamp, one with an empty timestamp and one with
an unparseable timestamp are each skipped individually. -/
theorem grade_characterization_witness :
    (alistGet? [("3", ["0B", "10P"])] "3").getD [] = ["0B", "10P"] := by
  have h := grade_characterization
    [⟨some 0, some (pystr "2024-01-01T12:03:00.000Z")⟩,
     ⟨none, some (pystr "2024-01-01T12:03:00.000Z")⟩,
     ⟨some 3, none⟩,
     ⟨some 4, some (pystr "")⟩,
     ⟨some 7, some (pystr "garbage")⟩,
     ⟨some 10, some (pystr "2024-01-01T12:03:05Z")⟩]
    [("3", ["0B", "10P"])] (by decide) "3"
  rw [h]
  decide
